import Mathlib

/-!
# Cohort analysis engine: shallow embedding and verification

This file embeds the core computation of the cohort-analysis tool
(`create_cohort_data`, src/cohort-analysis-run.py lines 172-252) in Lean and
proves properties of it.

Modelling choices, faithful to the source:

* A timestamp is a civil date `⟨y, m, d⟩`; `toDays` maps it to a day count in
  the proleptic Gregorian calendar (days since 0000-03-01), which is the order
  used for all comparisons (pandas timestamps at day resolution).
* Cohort labels in the source are strings whose lexicographic sort order
  coincides with chronological order (`%Y-%m-%d` for Daily, the
  `start/end` week label of pandas `to_period('W')` for Weekly, `%Y-%m` for
  Monthly).  We represent each label by an order-isomorphic natural number:
  the day number of the date (Daily), the day number of the Monday starting
  the week (Weekly; pandas weeks run Monday..Sunday and
  `Period.to_timestamp` returns the Monday), and the linear month index
  `y * 12 + (m - 1)` (Monthly).
* Rates are rational numbers (the Python floats `retained / size` and
  `1 - rate`).
-/

/-- A civil (calendar) date. -/
structure Date where
  y : Nat
  m : Nat
  d : Nat
deriving DecidableEq, Repr

/-- Day count of a civil date: days since 0000-03-01 of the proleptic
Gregorian calendar (Hinnant's `days_from_civil`, restricted to CE dates). -/
def toDays (dt : Date) : Nat :=
  let yAdj := if dt.m ≤ 2 then dt.y - 1 else dt.y
  let mAdj := if dt.m ≤ 2 then dt.m + 9 else dt.m - 3
  yAdj * 365 + yAdj / 4 - yAdj / 100 + yAdj / 400 + (153 * mAdj + 2) / 5 + (dt.d - 1)

/-- One row of the uploaded event table. `segment = none` models a row whose
optional segment cell is missing. -/
structure Event where
  customer_id : Nat
  date : Date
  event_type : String
  segment : Option String
deriving DecidableEq, Repr

/-- `cohort_type` values. -/
inductive Granularity
  | Daily
  | Weekly
  | Monthly
deriving DecidableEq, Repr

/-- `retention_type` values. -/
inductive RateMode
  | RetentionRate
  | ChurnRate
deriving DecidableEq, Repr

instance : BEq Granularity := ⟨fun a b => decide (a = b)⟩
instance : BEq RateMode := ⟨fun a b => decide (a = b)⟩

/-- The `cohort_settings` dict saved by the settings step. -/
structure CohortSettings where
  cohort_basis : String
  cohort_type : Granularity
  retention_event : String
  retention_type : RateMode

/-- The `date_range` dict: basis events qualify when their date lies in
`[start, end]` inclusive. -/
structure DateRange where
  start : Date
  stop : Date

/-- One row of the output table built by `create_cohort_data`.  `cohort` is
the numeric stand-in for the cohort label (see the header comment). -/
structure RetentionRecord where
  cohort : Nat
  period : Nat
  rate : ℚ
  segment : String
  cohort_size : Nat
  retained_users : Nat
deriving DecidableEq, Repr

/-- Source line 176-179: an event survives the basis filter when its date is
inside the range (inclusive on both ends) and its type is the cohort basis. -/
def basisFilter (s : CohortSettings) (r : DateRange) (e : Event) : Bool :=
  decide (toDays r.start ≤ toDays e.date) &&
    decide (toDays e.date ≤ toDays r.stop) &&
    (e.event_type == s.cohort_basis)

/-- The distinct customer ids of a list of events, in order of first
appearance (the grouping keys of `groupby('customer_id')`). -/
def uniqueCustomers (l : List Event) : List Nat :=
  l.foldl (fun acc e => if acc.contains e.customer_id then acc else acc ++ [e.customer_id]) []

/-- Earliest date among a customer's events (`groupby('customer_id')['date'].min()`);
`none` when the customer has no event in the list. -/
def minDateFor (l : List Event) (c : Nat) : Option Date :=
  (l.filter (fun e => e.customer_id == c)).foldl
    (fun acc e =>
      match acc with
      | none => some e.date
      | some d => if toDays e.date < toDays d then some e.date else some d)
    none

/-- A row of the intermediate `cohort_data` frame: one customer together with
the anchor date of their earliest qualifying basis event. -/
structure Member where
  customer_id : Nat
  anchor : Date
deriving DecidableEq, Repr

/-- Source lines 175-182: filter to in-range basis events and take each
customer's earliest such event as their cohort anchor. -/
def cohortMembers (data : List Event) (s : CohortSettings) (r : DateRange) : List Member :=
  let filtered := data.filter (basisFilter s r)
  (uniqueCustomers filtered).filterMap
    (fun c => (minDateFor filtered c).map (fun dt => ⟨c, dt⟩))

/-- Linear month index of a date: `y * 12 + (m - 1)`; the sort order of the
`%Y-%m` monthly cohort labels. -/
def monthIdx (dt : Date) : Nat := dt.y * 12 + (dt.m - 1)

/-- Day number of the Monday starting the week that contains day `n`
(pandas `to_period('W')` buckets; 2024-01-01, day 739191, is a Monday). -/
def weekStart (n : Nat) : Nat := n - (n + 2) % 7

/-- Source lines 184-189: the cohort label of an anchor date, as its numeric
stand-in (day number / Monday day number / month index by granularity). -/
def cohortKey (g : Granularity) (anchor : Date) : Nat :=
  match g with
  | .Daily => toDays anchor
  | .Weekly => weekStart (toDays anchor)
  | .Monthly => monthIdx anchor

/-- First day (as a day number) of the month with linear index `q`. -/
def monthStartOfIdx (q : Nat) : Nat := toDays ⟨q / 12, q % 12 + 1, 1⟩

/-- Source lines 211-214: parse the cohort label back into the cohort start
timestamp (`pd.to_datetime` for Daily, `pd.Period(...).to_timestamp()` for
Weekly/Monthly, i.e. the first day of the week or month). -/
def keyStartDay (g : Granularity) (key : Nat) : Nat :=
  match g with
  | .Daily => key
  | .Weekly => key
  | .Monthly => monthStartOfIdx key

/-- Source lines 216-226: the half-open window `[period_start, period_end)`
of period `k` of the cohort with label `key`, as a pair of day numbers. -/
def periodWindow (g : Granularity) (key : Nat) (k : Nat) : Nat × Nat :=
  match g with
  | .Daily => (key + k, key + k + 1)
  | .Weekly => (key + 7 * k, key + 7 * (k + 1))
  | .Monthly => (monthStartOfIdx (key + k), monthStartOfIdx (key + k + 1))

/-- Source line 197: customer ids carried by events whose segment cell equals
the given label (events of any type, not restricted to the date range). -/
def segmentCustomers (data : List Event) (seg : String) : List Nat :=
  (data.filter (fun e => e.segment == some seg)).map (·.customer_id)

/-- Source lines 195-200: restrict cohort membership to a segment;
the sentinel `"All"` keeps the whole membership. -/
def segmentMembers (data : List Event) (members : List Member) (seg : String) :
    List Member :=
  if seg == "All" then members
  else members.filter (fun mb => (segmentCustomers data seg).contains mb.customer_id)

/-- Insert into a strictly sorted list, dropping duplicates. -/
def insertSortedNoDup (x : Nat) : List Nat → List Nat
  | [] => [x]
  | y :: ys =>
    if x < y then x :: y :: ys
    else if x = y then y :: ys
    else y :: insertSortedNoDup x ys

/-- `sorted(frame['cohort'].unique())`: the distinct values in ascending
order. -/
def sortedUnique (l : List Nat) : List Nat :=
  l.foldl (fun acc x => insertSortedNoDup x acc) []

/-- Source line 191: the retention-event rows of the full (unfiltered) data. -/
def retentionEvents (data : List Event) (s : CohortSettings) : List Event :=
  data.filter (fun e => e.event_type == s.retention_event)

/-- Source line 204: the customers of one cohort inside one segment's
membership. -/
def cohortUsers (g : Granularity) (members : List Member) (key : Nat) : List Nat :=
  (members.filter (fun mb => cohortKey g mb.anchor == key)).map (·.customer_id)

/-- Source lines 229-233: number of distinct cohort customers having at least
one retention event with date in `[ws, we)`. -/
def retainedCount (retEvents : List Event) (users : List Nat) (ws we : Nat) : Nat :=
  (users.filter (fun c =>
    retEvents.any (fun e =>
      e.customer_id == c && decide (ws ≤ toDays e.date) && decide (toDays e.date < we)))).length

/-- Source lines 235-237: the emitted rate, `retained / size`, inverted to
`1 - rate` in churn mode. -/
def rateOf (mode : RateMode) (retained size : Nat) : ℚ :=
  match mode with
  | .ChurnRate => 1 - (retained : ℚ) / (size : ℚ)
  | .RetentionRate => (retained : ℚ) / (size : ℚ)

/-- Source lines 204-246, inner loop: the 13 records of one (segment, cohort)
pair, or nothing when the cohort is empty in this segment. -/
def recordsForCohort (data : List Event) (s : CohortSettings) (seg : String)
    (members : List Member) (key : Nat) : List RetentionRecord :=
  let users := cohortUsers s.cohort_type members key
  let size := users.length
  if size = 0 then []
  else
    (List.range 13).map (fun k =>
      let w := periodWindow s.cohort_type key k
      let ret := retainedCount (retentionEvents data s) users w.1 w.2
      { cohort := key, period := k, rate := rateOf s.retention_type ret size,
        segment := seg, cohort_size := size, retained_users := ret })

/-- The embedding of `create_cohort_data` (source lines 172-248): the flat
output table, segments outermost in supplied order, cohorts in ascending
label order, periods 0..12 innermost. -/
def createCohortData (data : List Event) (s : CohortSettings) (r : DateRange)
    (segments : List String) : List RetentionRecord :=
  let members := cohortMembers data s r
  segments.flatMap (fun seg =>
    let segMs := segmentMembers data members seg
    (sortedUnique (segMs.map (fun mb => cohortKey s.cohort_type mb.anchor))).flatMap
      (recordsForCohort data s seg segMs))

/-! ## Concrete scenarios used by the claims -/

/-- C1 scenario events: customer 1 has a basis event on 2024-01-01 and
retention events on 2024-01-02 and 2024-01-20; customer 2 has a basis event
on 2024-01-01 and no retention events. -/
def c1Events : List Event :=
  [⟨1, ⟨2024, 1, 1⟩, "signup", none⟩,
   ⟨1, ⟨2024, 1, 2⟩, "login", none⟩,
   ⟨1, ⟨2024, 1, 20⟩, "login", none⟩,
   ⟨2, ⟨2024, 1, 1⟩, "signup", none⟩]

/-- C1 settings: Daily granularity, retention mode. -/
def c1Settings : CohortSettings :=
  ⟨"signup", Granularity.Daily, "login", RateMode.RetentionRate⟩

/-- C1 date range: all of January 2024. -/
def c1Range : DateRange := ⟨⟨2024, 1, 1⟩, ⟨2024, 1, 31⟩⟩

/-- C1: End-to-end Daily scenario. With customer 1 (basis 2024-01-01,
retention 2024-01-02 and 2024-01-20) and customer 2 (basis 2024-01-01,
no retention events), Daily granularity and a January range, the output has
one cohort, labelled by day 2024-01-01, with `cohort_size = 2`; period 0
has `retained_count = 0`; period 1 has `retained_count = 1` and
`rate = 1/2`; and every emitted period index lies in 0..12 (the 2024-01-20
event falls in period 19, which is not emitted). -/
theorem c1_end_to_end_daily :
    (∀ rec ∈ createCohortData c1Events c1Settings c1Range ["All"],
      rec.cohort = toDays ⟨2024, 1, 1⟩ ∧ rec.cohort_size = 2 ∧ rec.period ≤ 12) ∧
    ((createCohortData c1Events c1Settings c1Range ["All"]).map
        (fun rec => (rec.period, rec.retained_users))).take 2 = [(0, 0), (1, 1)] ∧
    (createCohortData c1Events c1Settings c1Range ["All"]).length = 13 ∧
    ((createCohortData c1Events c1Settings c1Range ["All"]).get? 0).map (·.rate) =
      some 0 ∧
    ((createCohortData c1Events c1Settings c1Range ["All"]).get? 1).map (·.rate) =
      some (1 / 2) := by
  refine ⟨by decide, by decide, by decide, ?_, ?_⟩
  · have h : ((createCohortData c1Events c1Settings c1Range ["All"]).get? 0).map (·.rate) =
        some (rateOf RateMode.RetentionRate 0 2) := rfl
    rw [h]; norm_num [rateOf]
  · have h : ((createCohortData c1Events c1Settings c1Range ["All"]).get? 1).map (·.rate) =
        some (rateOf RateMode.RetentionRate 1 2) := rfl
    rw [h]; norm_num [rateOf]

/-! ## Helper lemmas -/

theorem mem_insertSortedNoDup {a x : Nat} {l : List Nat} :
    a ∈ insertSortedNoDup x l ↔ a = x ∨ a ∈ l := by
  induction l with
  | nil => simp [insertSortedNoDup]
  | cons y ys ih =>
    simp only [insertSortedNoDup]
    split
    · simp [List.mem_cons]
    · split
      · next hxy =>
        subst hxy
        simp only [List.mem_cons]
        tauto
      · simp only [List.mem_cons, ih]
        tauto

theorem pairwise_insertSortedNoDup {x : Nat} {l : List Nat}
    (h : List.Pairwise (· < ·) l) :
    List.Pairwise (· < ·) (insertSortedNoDup x l) := by
  induction l with
  | nil => simp [insertSortedNoDup]
  | cons y ys ih =>
    rcases List.pairwise_cons.1 h with ⟨hy, hys⟩
    simp only [insertSortedNoDup]
    split
    · next hlt =>
      refine List.pairwise_cons.2 ⟨?_, h⟩
      intro b hb
      rcases List.mem_cons.1 hb with hb | hb
      · omega
      · exact lt_trans hlt (hy b hb)
    · split
      · exact h
      · next hlt hne =>
        refine List.pairwise_cons.2 ⟨?_, ih hys⟩
        intro b hb
        rcases mem_insertSortedNoDup.1 hb with hb | hb
        · omega
        · exact hy b hb

theorem sortedUnique_pairwise (l : List Nat) :
    List.Pairwise (· < ·) (sortedUnique l) := by
  suffices h : ∀ acc, List.Pairwise (· < ·) acc →
      List.Pairwise (· < ·) (l.foldl (fun acc x => insertSortedNoDup x acc) acc) by
    exact h [] (by simp)
  induction l with
  | nil => intro acc hacc; simpa using hacc
  | cons x xs ih =>
    intro acc hacc
    exact ih _ (pairwise_insertSortedNoDup hacc)

theorem mem_sortedUnique {a : Nat} {l : List Nat} :
    a ∈ sortedUnique l ↔ a ∈ l := by
  suffices h : ∀ acc, a ∈ l.foldl (fun acc x => insertSortedNoDup x acc) acc ↔
      a ∈ acc ∨ a ∈ l by
    simpa using h []
  induction l with
  | nil => intro acc; simp
  | cons x xs ih =>
    intro acc
    rw [List.foldl_cons, ih]
    simp only [mem_insertSortedNoDup, List.mem_cons]
    tauto

theorem sortedUnique_nodup (l : List Nat) : (sortedUnique l).Nodup :=
  (sortedUnique_pairwise l).imp (fun h => Nat.ne_of_lt h)

/-! ## Calendar-month arithmetic -/

/-- The (year, month) pair of the month with linear index `q`. -/
def monthOfIdx (q : Nat) : Nat × Nat := (q / 12, q % 12 + 1)

/-- Successor month in the civil calendar. -/
def nextMonth (ym : Nat × Nat) : Nat × Nat :=
  if ym.2 = 12 then (ym.1 + 1, 1) else (ym.1, ym.2 + 1)

/-- `k` calendar months after a (year, month) pair. -/
def addMonths (ym : Nat × Nat) : Nat → Nat × Nat
  | 0 => ym
  | k + 1 => nextMonth (addMonths ym k)

theorem monthOfIdx_succ (q : Nat) : monthOfIdx (q + 1) = nextMonth (monthOfIdx q) := by
  unfold monthOfIdx nextMonth
  by_cases h : q % 12 + 1 = 12
  · rw [if_pos h]
    refine Prod.ext ?_ ?_ <;> simp <;> omega
  · rw [if_neg h]
    refine Prod.ext ?_ ?_ <;> simp <;> omega

theorem monthOfIdx_add (q k : Nat) : monthOfIdx (q + k) = addMonths (monthOfIdx q) k := by
  induction k with
  | zero => rfl
  | succ k ih => rw [← Nat.add_assoc, monthOfIdx_succ, ih]; rfl

theorem monthOfIdx_monthIdx (a : Date) (h1 : 1 ≤ a.m) (h2 : a.m ≤ 12) :
    monthOfIdx (monthIdx a) = (a.y, a.m) := by
  unfold monthOfIdx monthIdx
  refine Prod.ext ?_ ?_ <;> simp <;> omega

/-- C2: Monthly period windows use true calendar-month arithmetic.  For any
anchor date with a valid month, the period-`k` window of its Monthly cohort
runs from the first day of the anchor's month advanced by `k` successive
calendar months to the first day of the month advanced by `k + 1` months;
concretely, a January-2024-anchored cohort has period-1 window
`[2024-02-01, 2024-03-01)`, whose width is 29 days (leap February), while
its period-0 window is 31 days wide — never a fixed 30-day block. -/
theorem c2_monthly_calendar_windows :
    (∀ (a : Date) (k : Nat), 1 ≤ a.m → a.m ≤ 12 →
      periodWindow Granularity.Monthly (cohortKey Granularity.Monthly a) k =
        (toDays ⟨(addMonths (a.y, a.m) k).1, (addMonths (a.y, a.m) k).2, 1⟩,
         toDays ⟨(addMonths (a.y, a.m) (k + 1)).1, (addMonths (a.y, a.m) (k + 1)).2, 1⟩)) ∧
    periodWindow Granularity.Monthly (cohortKey Granularity.Monthly ⟨2024, 1, 15⟩) 1 =
      (toDays ⟨2024, 2, 1⟩, toDays ⟨2024, 3, 1⟩) ∧
    toDays ⟨2024, 3, 1⟩ - toDays ⟨2024, 2, 1⟩ = 29 ∧
    toDays ⟨2024, 2, 1⟩ - toDays ⟨2024, 1, 1⟩ = 31 := by
  refine ⟨?_, by decide, by decide, by decide⟩
  intro a k h1 h2
  have hbase : monthOfIdx (monthIdx a) = (a.y, a.m) := monthOfIdx_monthIdx a h1 h2
  have hk : monthOfIdx (monthIdx a + k) = addMonths (a.y, a.m) k := by
    rw [monthOfIdx_add, hbase]
  have hk1 : monthOfIdx (monthIdx a + (k + 1)) = addMonths (a.y, a.m) (k + 1) := by
    rw [monthOfIdx_add, hbase]
  show (monthStartOfIdx (monthIdx a + k), monthStartOfIdx (monthIdx a + k + 1)) = _
  unfold monthStartOfIdx
  rw [show monthIdx a + k + 1 = monthIdx a + (k + 1) by omega]
  rw [show (monthIdx a + k) / 12 = (monthOfIdx (monthIdx a + k)).1 from rfl]
  rw [show (monthIdx a + k) % 12 + 1 = (monthOfIdx (monthIdx a + k)).2 from rfl]
  rw [show (monthIdx a + (k + 1)) / 12 = (monthOfIdx (monthIdx a + (k + 1))).1 from rfl]
  rw [show (monthIdx a + (k + 1)) % 12 + 1 = (monthOfIdx (monthIdx a + (k + 1))).2 from rfl]
  rw [hk, hk1]

/-- Witness for C2 at the concrete anchor 2024-01-15 and period 1. -/
theorem c2_monthly_calendar_windows_witness :
    periodWindow Granularity.Monthly (cohortKey Granularity.Monthly ⟨2024, 1, 15⟩) 1 =
      (toDays ⟨(addMonths (2024, 1) 1).1, (addMonths (2024, 1) 1).2, 1⟩,
       toDays ⟨(addMonths (2024, 1) 2).1, (addMonths (2024, 1) 2).2, 1⟩) :=
  c2_monthly_calendar_windows.1 ⟨2024, 1, 15⟩ 1 (by decide) (by decide)

/-! ## Churn/retention duality -/

theorem recordsForCohort_mode (data : List Event) (s : CohortSettings) (seg : String)
    (ms : List Member) (key : Nat) :
    recordsForCohort data { s with retention_type := RateMode.ChurnRate } seg ms key =
      (recordsForCohort data { s with retention_type := RateMode.RetentionRate } seg ms key).map
        (fun rec => { rec with rate := 1 - rec.rate }) := by
  unfold recordsForCohort
  dsimp only
  by_cases h : (cohortUsers s.cohort_type ms key).length = 0
  · rw [if_pos h, if_pos h]
    rfl
  · rw [if_neg h, if_neg h, List.map_map]
    apply List.map_congr_left
    intro k _
    rfl

/-- C4: Churn/Retention duality.  Two runs on identical inputs differing only
in the mode produce tables of the same shape: the Churn-mode table is the
Retention-mode table with every rate replaced by `1 - rate`, all other
fields (segment, cohort, period, cohort_size, retained_users) unchanged. -/
theorem c4_churn_retention_duality (data : List Event) (s : CohortSettings)
    (r : DateRange) (segments : List String) :
    createCohortData data { s with retention_type := RateMode.ChurnRate } r segments =
      (createCohortData data { s with retention_type := RateMode.RetentionRate } r segments).map
        (fun rec => { rec with rate := 1 - rec.rate }) := by
  unfold createCohortData
  dsimp only
  rw [List.map_flatMap]
  refine congrArg (List.flatMap segments) ?_
  funext seg
  rw [List.map_flatMap]
  refine congrArg (List.flatMap _) ?_
  funext key
  exact recordsForCohort_mode data s seg _ key

/-! ## Record membership and invariants -/

theorem mem_recordsForCohort {data : List Event} {s : CohortSettings} {seg : String}
    {ms : List Member} {key : Nat} {rec : RetentionRecord}
    (h : rec ∈ recordsForCohort data s seg ms key) :
    ∃ k, k < 13 ∧ (cohortUsers s.cohort_type ms key).length ≠ 0 ∧
      rec = { cohort := key, period := k,
              rate := rateOf s.retention_type
                (retainedCount (retentionEvents data s) (cohortUsers s.cohort_type ms key)
                  (periodWindow s.cohort_type key k).1 (periodWindow s.cohort_type key k).2)
                (cohortUsers s.cohort_type ms key).length,
              segment := seg,
              cohort_size := (cohortUsers s.cohort_type ms key).length,
              retained_users :=
                retainedCount (retentionEvents data s) (cohortUsers s.cohort_type ms key)
                  (periodWindow s.cohort_type key k).1 (periodWindow s.cohort_type key k).2 } := by
  unfold recordsForCohort at h
  dsimp only at h
  by_cases hz : (cohortUsers s.cohort_type ms key).length = 0
  · rw [if_pos hz] at h
    exact absurd h (List.not_mem_nil rec)
  · rw [if_neg hz] at h
    rcases List.mem_map.1 h with ⟨k, hk, hrec⟩
    exact ⟨k, List.mem_range.1 hk, hz, hrec.symm⟩

theorem retainedCount_le (retEvents : List Event) (users : List Nat) (ws we : Nat) :
    retainedCount retEvents users ws we ≤ users.length :=
  List.length_filter_le _ users

theorem rateOf_nonneg_le_one (mode : RateMode) (ret size : Nat)
    (h1 : ret ≤ size) (h2 : size ≠ 0) :
    0 ≤ rateOf mode ret size ∧ rateOf mode ret size ≤ 1 := by
  have hs : (0 : ℚ) < (size : ℚ) := by exact_mod_cast Nat.pos_of_ne_zero h2
  have hr1 : (ret : ℚ) ≤ (size : ℚ) := by exact_mod_cast h1
  have h0 : (0 : ℚ) ≤ (ret : ℚ) / (size : ℚ) :=
    div_nonneg (by positivity) (le_of_lt hs)
  have hle : (ret : ℚ) / (size : ℚ) ≤ 1 := (div_le_one hs).2 hr1
  cases mode <;> simp only [rateOf] <;> constructor <;> linarith

/-- C5: every emitted record satisfies `retained_users ≤ cohort_size`,
`0 ≤ rate ≤ 1` (in retention mode and after churn inversion alike), and has
strictly positive `cohort_size` — no record is ever emitted for an empty
(segment, cohort) pair, for any period. -/
theorem c5_record_invariants (data : List Event) (s : CohortSettings) (r : DateRange)
    (segments : List String) (rec : RetentionRecord)
    (h : rec ∈ createCohortData data s r segments) :
    rec.retained_users ≤ rec.cohort_size ∧ 0 ≤ rec.rate ∧ rec.rate ≤ 1 ∧
      rec.cohort_size ≠ 0 := by
  unfold createCohortData at h
  dsimp only at h
  rcases List.mem_flatMap.1 h with ⟨seg, _, h⟩
  rcases List.mem_flatMap.1 h with ⟨key, _, hrec⟩
  rcases mem_recordsForCohort hrec with ⟨k, _, hz, hrec⟩
  subst hrec
  dsimp only
  have hle := retainedCount_le (retentionEvents data s)
    (cohortUsers s.cohort_type (segmentMembers data (cohortMembers data s r) seg) key)
    (periodWindow s.cohort_type key k).1 (periodWindow s.cohort_type key k).2
  have hb := rateOf_nonneg_le_one s.retention_type _ _ hle hz
  exact ⟨hle, hb.1, hb.2, hz⟩

/-- The period-0 record of the C1 scenario, used as the C5 witness record. -/
def c5Rec : RetentionRecord :=
  { cohort := toDays ⟨2024, 1, 1⟩, period := 0, rate := rateOf RateMode.RetentionRate 0 2,
    segment := "All", cohort_size := 2, retained_users := 0 }

/-- Witness for C5 at a concrete emitted record. -/
theorem c5_record_invariants_witness :
    c5Rec.retained_users ≤ c5Rec.cohort_size ∧ 0 ≤ c5Rec.rate ∧ c5Rec.rate ≤ 1 ∧
      c5Rec.cohort_size ≠ 0 :=
  c5_record_invariants c1Events c1Settings c1Range ["All"] c5Rec
    (List.get?_mem (n := 0) (by rfl))

/-! ## Segment filtering semantics -/

/-- C3 scenario: two customers entering the same Daily cohort, one in segment
`"X"` and one in segment `"Y"`. -/
def c3Events : List Event :=
  [⟨1, ⟨2024, 1, 1⟩, "signup", some "X"⟩,
   ⟨2, ⟨2024, 1, 1⟩, "signup", some "Y"⟩]

/-- C3 settings: Daily, retention mode. -/
def c3Settings : CohortSettings :=
  ⟨"signup", Granularity.Daily, "login", RateMode.RetentionRate⟩

/-- C3 date range: January 2024. -/
def c3Range : DateRange := ⟨⟨2024, 1, 1⟩, ⟨2024, 1, 31⟩⟩

/-- The period-0 record of the C3 scenario's `"X"` run. -/
def c3Rec : RetentionRecord :=
  { cohort := toDays ⟨2024, 1, 1⟩, period := 0, rate := rateOf RateMode.RetentionRate 0 1,
    segment := "X", cohort_size := 1, retained_users := 0 }

/-- C3: segment filtering is applied to cohort membership before sizing.
Every record of a non-`"All"` segment reports as `cohort_size` the number of
cohort members that belong to that segment (customers carrying the segment
label on some event), not the unfiltered cohort's size; concretely, the
cohort of 2024-01-01 has size 2 in the `"All"` run but size 1 in the `"X"`
run over the same data. -/
theorem c3_segment_cohort_size :
    (∀ (data : List Event) (s : CohortSettings) (r : DateRange) (segments : List String)
        (rec : RetentionRecord), rec ∈ createCohortData data s r segments →
      rec.segment ≠ "All" →
      rec.cohort_size = ((cohortMembers data s r).filter (fun mb =>
        (cohortKey s.cohort_type mb.anchor == rec.cohort) &&
        (segmentCustomers data rec.segment).contains mb.customer_id)).length) ∧
    ((createCohortData c3Events c3Settings c3Range ["All"]).get? 0).map
        (fun rec => (rec.cohort, rec.cohort_size)) = some (toDays ⟨2024, 1, 1⟩, 2) ∧
    ((createCohortData c3Events c3Settings c3Range ["X"]).get? 0).map
        (fun rec => (rec.cohort, rec.cohort_size)) = some (toDays ⟨2024, 1, 1⟩, 1) := by
  refine ⟨?_, by decide, by decide⟩
  intro data s r segments rec h hAll
  unfold createCohortData at h
  dsimp only at h
  rcases List.mem_flatMap.1 h with ⟨seg, _, h⟩
  rcases List.mem_flatMap.1 h with ⟨key, _, hrec⟩
  rcases mem_recordsForCohort hrec with ⟨k, _, _, hrec⟩
  subst hrec
  dsimp only at hAll ⊢
  unfold cohortUsers segmentMembers
  rw [if_neg (by simpa using hAll), List.length_map, List.filter_filter]

/-- Witness for C3 at the concrete `"X"`-run record. -/
theorem c3_segment_cohort_size_witness :
    c3Rec.cohort_size = ((cohortMembers c3Events c3Settings c3Range).filter (fun mb =>
      (cohortKey c3Settings.cohort_type mb.anchor == c3Rec.cohort) &&
      (segmentCustomers c3Events c3Rec.segment).contains mb.customer_id)).length :=
  c3_segment_cohort_size.1 c3Events c3Settings c3Range ["X"] c3Rec
    (List.get?_mem (n := 0) (by rfl)) (by decide)

/-! ## Windows are not clipped to the date range -/

/-- C7 scenario: basis event on 2024-01-03 inside the range
`[2024-01-01, 2024-01-05]`; retention event on 2024-01-10, outside it. -/
def c7Events : List Event :=
  [⟨1, ⟨2024, 1, 3⟩, "signup", none⟩,
   ⟨1, ⟨2024, 1, 10⟩, "login", none⟩]

/-- C7 settings: Daily, retention mode. -/
def c7Settings : CohortSettings :=
  ⟨"signup", Granularity.Daily, "login", RateMode.RetentionRate⟩

/-- C7 date range: 2024-01-01 to 2024-01-05. -/
def c7Range : DateRange := ⟨⟨2024, 1, 1⟩, ⟨2024, 1, 5⟩⟩

/-- A second range with the same qualifying basis events as `c7Range`. -/
def c7RangeW : DateRange := ⟨⟨2024, 1, 1⟩, ⟨2024, 1, 7⟩⟩

/-- C7: period windows are not clipped to the analysis date range.  The range
influences the output only through cohort membership (which basis events
qualify): any two ranges yielding the same membership yield identical
tables, and in particular retention events outside the range still count.
Concretely, the 2024-01-10 retention event lies strictly after the range end
2024-01-05 yet the period-7 record (window `[2024-01-10, 2024-01-11)`)
reports the customer as retained. -/
theorem c7_windows_not_clipped :
    (∀ (data : List Event) (s : CohortSettings) (r r' : DateRange)
        (segments : List String),
      cohortMembers data s r = cohortMembers data s r' →
      createCohortData data s r segments = createCohortData data s r' segments) ∧
    toDays c7Range.stop < toDays ⟨2024, 1, 10⟩ ∧
    ((createCohortData c7Events c7Settings c7Range ["All"]).get? 7).map
        (fun rec => (rec.period, rec.retained_users, rec.cohort_size)) = some (7, 1, 1) := by
  refine ⟨?_, by decide, by decide⟩
  intro data s r r' segments h
  unfold createCohortData
  dsimp only
  rw [h]

/-- Witness for C7: the two concrete ranges produce the same membership and
hence the same table. -/
theorem c7_windows_not_clipped_witness :
    createCohortData c7Events c7Settings c7Range ["All"] =
      createCohortData c7Events c7Settings c7RangeW ["All"] :=
  c7_windows_not_clipped.1 c7Events c7Settings c7Range c7RangeW ["All"] (by decide)

/-! ## Empty results -/

theorem segmentMembers_nil (data : List Event) (seg : String) :
    segmentMembers data [] seg = [] := by
  unfold segmentMembers
  split <;> rfl

/-- C8: when the date range excludes every basis event, or every requested
segment has empty cohort membership, the computation returns the empty table
as an ordinary value (its return type is a plain list of records, so the
caller distinguishes this "insufficient data" outcome by emptiness, not by
catching an error). -/
theorem c8_empty_result (data : List Event) (s : CohortSettings) (r : DateRange)
    (segments : List String) :
    ((∀ e ∈ data, basisFilter s r e = false) →
      createCohortData data s r segments = []) ∧
    ((∀ seg ∈ segments, segmentMembers data (cohortMembers data s r) seg = []) →
      createCohortData data s r segments = []) := by
  constructor
  · intro hall
    have hfil : data.filter (basisFilter s r) = [] := by
      rw [List.filter_eq_nil_iff]
      intro a ha
      simp [hall a ha]
    have hm : cohortMembers data s r = [] := by
      unfold cohortMembers
      rw [hfil]
      rfl
    unfold createCohortData
    dsimp only
    rw [List.flatMap_eq_nil_iff]
    intro seg _
    rw [hm, segmentMembers_nil]
    rfl
  · intro hall
    unfold createCohortData
    dsimp only
    rw [List.flatMap_eq_nil_iff]
    intro seg hs
    rw [hall seg hs]
    rfl

/-- C8 date range in 2025, excluding all 2024 events. -/
def c8Range : DateRange := ⟨⟨2025, 1, 1⟩, ⟨2025, 1, 31⟩⟩

/-- Witness for C8: a range beyond all events yields the empty table. -/
theorem c8_empty_result_witness :
    createCohortData c1Events c1Settings c8Range ["All"] = [] :=
  (c8_empty_result c1Events c1Settings c8Range ["All"]).1 (by decide)

/-! ## Failure handling (source lines 250-252) -/

/-- Models the `try/except` wrapper of `create_cohort_data` (source lines
173 and 250-252): the body either produces a table (`Except.ok`) or raises
with some message (`Except.error`); the handler displays the message and
returns `pd.DataFrame()`, the empty table. -/
def handleFailure (res : Except String (List RetentionRecord)) : List RetentionRecord :=
  match res with
  | .ok t => t
  | .error _ => []

/-- C9 counterexample: the value surfaced to the caller after an unexpected
failure is the empty table, literally equal to the value surfaced for an
intentional empty result — the caller cannot distinguish the two, so the
failure is not surfaced as an explicit error. -/
theorem c9_failure_indistinguishable_counterexample :
    handleFailure (Except.error "unexpected failure") =
      handleFailure (Except.ok []) := rfl

/-- C9 amended: when any unexpected failure occurs, the run returns the empty
table (no partial table is returned, and a message is displayed as a side
effect), but this empty table is indistinguishable from the intentional
empty-result condition; successful computations pass their table through
unchanged. -/
theorem c9_failure_swallowed :
    (∀ msg : String, handleFailure (Except.error msg) = []) ∧
    (∀ t : List RetentionRecord, handleFailure (Except.ok t) = t) :=
  ⟨fun _ => rfl, fun _ => rfl⟩

/-! ## Weekly/Monthly buckets open at the week/month start -/

/-- C10 scenario: the basis event falls on Wednesday 2024-01-03; a retention
event on Monday 2024-01-01 precedes it but lies in the same
Monday-starting week. -/
def c10Events : List Event :=
  [⟨1, ⟨2024, 1, 3⟩, "signup", none⟩,
   ⟨1, ⟨2024, 1, 1⟩, "login", none⟩]

/-- C10 settings: Weekly granularity, retention mode. -/
def c10Settings : CohortSettings :=
  ⟨"signup", Granularity.Weekly, "login", RateMode.RetentionRate⟩

/-- C10 date range: January 2024. -/
def c10Range : DateRange := ⟨⟨2024, 1, 1⟩, ⟨2024, 1, 31⟩⟩

/-- C10: for Weekly (resp. Monthly) granularity the period-0 window starts at
the Monday of the week (resp. first day of the month) containing the anchor,
at or before the anchor itself; consequently a retention event that precedes
the customer's basis event inside that opening bucket counts as period-0
retention.  Concretely, with basis 2024-01-03 and retention 2024-01-01 the
Weekly period-0 record reports the customer retained. -/
theorem c10_bucket_starts_before_anchor :
    (∀ a : Date, 7 ≤ toDays a →
      (periodWindow Granularity.Weekly (cohortKey Granularity.Weekly a) 0).1 =
          weekStart (toDays a) ∧
        weekStart (toDays a) ≤ toDays a ∧
        toDays a < weekStart (toDays a) + 7 ∧
        (weekStart (toDays a) + 2) % 7 = 0) ∧
    (∀ a : Date, 1 ≤ a.m → a.m ≤ 12 →
      (periodWindow Granularity.Monthly (cohortKey Granularity.Monthly a) 0).1 =
          toDays ⟨a.y, a.m, 1⟩ ∧
        toDays ⟨a.y, a.m, 1⟩ ≤ toDays a) ∧
    toDays ⟨2024, 1, 1⟩ < toDays ⟨2024, 1, 3⟩ ∧
    ((createCohortData c10Events c10Settings c10Range ["All"]).get? 0).map
        (fun rec => (rec.period, rec.retained_users, rec.cohort)) =
      some (0, 1, toDays ⟨2024, 1, 1⟩) := by
  refine ⟨?_, ?_, by decide, by decide⟩
  · intro a h7
    refine ⟨rfl, ?_, ?_, ?_⟩ <;> unfold weekStart <;> omega
  · intro a h1 h2
    constructor
    · show monthStartOfIdx (monthIdx a + 0) = _
      unfold monthStartOfIdx
      rw [show (monthIdx a + 0) / 12 = (monthOfIdx (monthIdx a + 0)).1 from rfl]
      rw [show (monthIdx a + 0) % 12 + 1 = (monthOfIdx (monthIdx a + 0)).2 from rfl]
      rw [show monthIdx a + 0 = monthIdx a from rfl, monthOfIdx_monthIdx a h1 h2]
    · unfold toDays
      by_cases h : a.m ≤ 2 <;> simp only [h, if_true, if_false, reduceIte] <;> omega

/-- Witness for C10 at the anchors 2024-01-03 (Weekly) and 2024-01-15
(Monthly). -/
theorem c10_bucket_starts_before_anchor_witness :
    ((periodWindow Granularity.Weekly (cohortKey Granularity.Weekly ⟨2024, 1, 3⟩) 0).1 =
        weekStart (toDays ⟨2024, 1, 3⟩) ∧
      weekStart (toDays ⟨2024, 1, 3⟩) ≤ toDays ⟨2024, 1, 3⟩ ∧
      toDays ⟨2024, 1, 3⟩ < weekStart (toDays ⟨2024, 1, 3⟩) + 7 ∧
      (weekStart (toDays ⟨2024, 1, 3⟩) + 2) % 7 = 0) ∧
    ((periodWindow Granularity.Monthly (cohortKey Granularity.Monthly ⟨2024, 1, 15⟩) 0).1 =
        toDays ⟨2024, 1, 1⟩ ∧
      toDays ⟨2024, 1, 1⟩ ≤ toDays ⟨2024, 1, 15⟩) :=
  ⟨c10_bucket_starts_before_anchor.1 ⟨2024, 1, 3⟩ (by decide),
   c10_bucket_starts_before_anchor.2.1 ⟨2024, 1, 15⟩ (by decide) (by decide)⟩

/-! ## Output ordering -/

/-- Strict lexicographic order on output rows: segment position in the
supplied segment list first, then cohort label, then period index. -/
def rowOrderLt (segments : List String) (a b : RetentionRecord) : Prop :=
  segments.indexOf a.segment < segments.indexOf b.segment ∨
    (a.segment = b.segment ∧
      (a.cohort < b.cohort ∨ (a.cohort = b.cohort ∧ a.period < b.period)))

theorem recordsForCohort_fields {data : List Event} {s : CohortSettings} {seg : String}
    {ms : List Member} {key : Nat} {rec : RetentionRecord}
    (h : rec ∈ recordsForCohort data s seg ms key) :
    rec.segment = seg ∧ rec.cohort = key := by
  rcases mem_recordsForCohort h with ⟨k, _, _, hrec⟩
  subst hrec
  exact ⟨rfl, rfl⟩

theorem recordsForCohort_pairwise (segments : List String) (data : List Event)
    (s : CohortSettings) (seg : String) (ms : List Member) (key : Nat) :
    List.Pairwise (rowOrderLt segments) (recordsForCohort data s seg ms key) := by
  unfold recordsForCohort
  dsimp only
  split
  · exact List.Pairwise.nil
  · rw [List.pairwise_map]
    refine (List.pairwise_lt_range 13).imp ?_
    intro k1 k2 hk
    exact Or.inr ⟨rfl, Or.inr ⟨rfl, hk⟩⟩

theorem nodup_pairwise_indexOf (l : List String) (h : l.Nodup) :
    l.Pairwise (fun a b => l.indexOf a < l.indexOf b) := by
  rw [List.pairwise_iff_get]
  intro i j hij
  rw [List.get_eq_getElem, List.get_eq_getElem,
    List.indexOf_getElem h i.1 i.2, List.indexOf_getElem h j.1 j.2]
  exact hij

/-- The per-segment slice of the output table. -/
def segmentBlock (data : List Event) (s : CohortSettings) (r : DateRange)
    (seg : String) : List RetentionRecord :=
  let segMs := segmentMembers data (cohortMembers data s r) seg
  (sortedUnique (segMs.map (fun mb => cohortKey s.cohort_type mb.anchor))).flatMap
    (recordsForCohort data s seg segMs)

theorem createCohortData_eq_blocks (data : List Event) (s : CohortSettings)
    (r : DateRange) (segments : List String) :
    createCohortData data s r segments = segments.flatMap (segmentBlock data s r) := rfl

theorem segmentBlock_fields {data : List Event} {s : CohortSettings} {r : DateRange}
    {seg : String} {rec : RetentionRecord} (h : rec ∈ segmentBlock data s r seg) :
    rec.segment = seg := by
  rcases List.mem_flatMap.1 h with ⟨key, _, hrec⟩
  exact (recordsForCohort_fields hrec).1

theorem segmentBlock_pairwise (segments : List String) (data : List Event)
    (s : CohortSettings) (r : DateRange) (seg : String) :
    List.Pairwise (rowOrderLt segments) (segmentBlock data s r seg) := by
  unfold segmentBlock
  dsimp only
  rw [List.pairwise_flatMap]
  constructor
  · intro key _
    exact recordsForCohort_pairwise segments data s seg _ key
  · refine (sortedUnique_pairwise _).imp ?_
    intro k1 k2 hk x hx y hy
    rcases recordsForCohort_fields hx with ⟨hxs, hxc⟩
    rcases recordsForCohort_fields hy with ⟨hys, hyc⟩
    exact Or.inr ⟨hxs.trans hys.symm, Or.inl (by rw [hxc, hyc]; exact hk)⟩

theorem createCohortData_pairwise (data : List Event) (s : CohortSettings) (r : DateRange)
    (segments : List String) (hnd : segments.Nodup) :
    List.Pairwise (rowOrderLt segments) (createCohortData data s r segments) := by
  rw [createCohortData_eq_blocks, List.pairwise_flatMap]
  constructor
  · intro seg _
    exact segmentBlock_pairwise segments data s r seg
  · refine (nodup_pairwise_indexOf segments hnd).imp ?_
    intro s1 s2 hlt x hx y hy
    exact Or.inl (by rw [segmentBlock_fields hx, segmentBlock_fields hy]; exact hlt)

theorem flatMap_single {α β : Type} [DecidableEq α] {l : List α} {f : α → List β} {a : α}
    (hnd : l.Nodup) (ha : a ∈ l) (hz : ∀ b ∈ l, b ≠ a → f b = []) :
    l.flatMap f = f a := by
  induction l with
  | nil => cases ha
  | cons x xs ih =>
    rcases List.nodup_cons.1 hnd with ⟨hx, hxs⟩
    rcases List.mem_cons.1 ha with rfl | ha'
    · have hrest : xs.flatMap f = [] := by
        rw [List.flatMap_eq_nil_iff]
        intro b hb
        exact hz b (List.mem_cons_of_mem _ hb) (fun hba => hx (hba ▸ hb))
      rw [List.flatMap_cons, hrest, List.append_nil]
    · have hfx : f x = [] :=
        hz x (List.mem_cons_self x xs) (fun hxa => hx (hxa ▸ ha'))
      rw [List.flatMap_cons, hfx, List.nil_append]
      exact ih hxs ha' (fun b hb => hz b (List.mem_cons_of_mem _ hb))

theorem cohortUsers_length_ne_zero {g : Granularity} {ms : List Member} {key : Nat}
    (h : key ∈ sortedUnique (ms.map (fun mb => cohortKey g mb.anchor))) :
    (cohortUsers g ms key).length ≠ 0 := by
  rw [mem_sortedUnique] at h
  rcases List.mem_map.1 h with ⟨mb, hmb, hk⟩
  have hmem : mb ∈ ms.filter (fun mb => cohortKey g mb.anchor == key) :=
    List.mem_filter.2 ⟨hmb, by simp [hk]⟩
  unfold cohortUsers
  rw [List.length_map]
  intro h0
  rw [List.length_eq_zero] at h0
  rw [h0] at hmem
  exact List.not_mem_nil mb hmem

theorem recordsForCohort_filter_self (data : List Event) (s : CohortSettings)
    (seg : String) (ms : List Member) (key : Nat) :
    (recordsForCohort data s seg ms key).filter
        (fun rec => rec.segment == seg && rec.cohort == key) =
      recordsForCohort data s seg ms key := by
  rw [List.filter_eq_self]
  intro rec hrec
  rcases recordsForCohort_fields hrec with ⟨h1, h2⟩
  simp [h1, h2]

theorem recordsForCohort_filter_nil {data : List Event} {s : CohortSettings}
    {seg seg' : String} {ms : List Member} {key key' : Nat}
    (h : seg ≠ seg' ∨ key ≠ key') :
    (recordsForCohort data s seg ms key).filter
        (fun rec => rec.segment == seg' && rec.cohort == key') = [] := by
  rw [List.filter_eq_nil_iff]
  intro rec hrec hp
  rcases recordsForCohort_fields hrec with ⟨h1, h2⟩
  rw [Bool.and_eq_true, beq_iff_eq, beq_iff_eq, h1, h2] at hp
  rcases h with h | h
  · exact h hp.1
  · exact h hp.2

theorem createCohortData_filter_thirteen (data : List Event) (s : CohortSettings) (r : DateRange)
    (segments : List String) (hnd : segments.Nodup) (seg' : String) (key' : Nat)
    (hne : (createCohortData data s r segments).filter
        (fun rec => rec.segment == seg' && rec.cohort == key') ≠ []) :
    ((createCohortData data s r segments).filter
        (fun rec => rec.segment == seg' && rec.cohort == key')).map (·.period) =
      List.range 13 := by
  rcases List.exists_mem_of_ne_nil _ hne with ⟨rec, hrec⟩
  rcases List.mem_filter.1 hrec with ⟨hmem, hp⟩
  rw [Bool.and_eq_true, beq_iff_eq, beq_iff_eq] at hp
  rw [createCohortData_eq_blocks] at hmem
  rcases List.mem_flatMap.1 hmem with ⟨seg, hsegmem, hblock⟩
  have hseg : seg = seg' := (segmentBlock_fields hblock).symm.trans hp.1
  subst hseg
  rcases List.mem_flatMap.1 hblock with ⟨key, hkeymem, hgrp⟩
  have hkey : key = key' := ((recordsForCohort_fields hgrp).2).symm.trans hp.2
  subst hkey
  have hstep1 : (createCohortData data s r segments).filter
      (fun rec => rec.segment == seg && rec.cohort == key) =
      (segmentBlock data s r seg).filter
        (fun rec => rec.segment == seg && rec.cohort == key) := by
    rw [createCohortData_eq_blocks, List.filter_flatMap]
    refine flatMap_single hnd hsegmem ?_
    intro b hb hbne
    unfold segmentBlock
    dsimp only
    rw [List.filter_flatMap, List.flatMap_eq_nil_iff]
    intro k _
    exact recordsForCohort_filter_nil (Or.inl hbne)
  have hstep2 : (segmentBlock data s r seg).filter
      (fun rec => rec.segment == seg && rec.cohort == key) =
      recordsForCohort data s
        (seg) (segmentMembers data (cohortMembers data s r) seg) key := by
    unfold segmentBlock
    dsimp only
    rw [List.filter_flatMap]
    rw [flatMap_single (sortedUnique_nodup _) hkeymem ?_]
    · exact recordsForCohort_filter_self data s seg _ key
    · intro b _ hbne
      exact recordsForCohort_filter_nil (Or.inr hbne)
  rw [hstep1, hstep2]
  unfold recordsForCohort
  dsimp only
  rw [if_neg (cohortUsers_length_ne_zero hkeymem), List.map_map]
  have : ((fun rec => rec.period) ∘ fun k =>
      ({ cohort := key, period := k,
         rate := rateOf s.retention_type
           (retainedCount (retentionEvents data s)
             (cohortUsers s.cohort_type (segmentMembers data (cohortMembers data s r) seg) key)
             (periodWindow s.cohort_type key k).1 (periodWindow s.cohort_type key k).2)
           (cohortUsers s.cohort_type (segmentMembers data (cohortMembers data s r) seg) key).length,
         segment := seg,
         cohort_size :=
           (cohortUsers s.cohort_type (segmentMembers data (cohortMembers data s r) seg) key).length,
         retained_users :=
           retainedCount (retentionEvents data s)
             (cohortUsers s.cohort_type (segmentMembers data (cohortMembers data s r) seg) key)
             (periodWindow s.cohort_type key k).1 (periodWindow s.cohort_type key k).2 } :
        RetentionRecord)) = fun k => k := rfl
  rw [this, List.map_id']

/-- C6: output rows are ordered with segment outermost (in the order the
segments were supplied), cohort label ascending within each segment, and
period index innermost; and every emitted (segment, cohort) pair
contributes exactly 13 rows, with period indices 0 through 12 in increasing
order.  (Supplied segment lists are duplicate-free: the UI builds them from
`unique()` labels.) -/
theorem c6_output_ordering (data : List Event) (s : CohortSettings) (r : DateRange)
    (segments : List String) (hnd : segments.Nodup) :
    List.Pairwise (rowOrderLt segments) (createCohortData data s r segments) ∧
    ∀ (seg : String) (key : Nat),
      (createCohortData data s r segments).filter
          (fun rec => rec.segment == seg && rec.cohort == key) ≠ [] →
      ((createCohortData data s r segments).filter
          (fun rec => rec.segment == seg && rec.cohort == key)).map (·.period) =
        List.range 13 :=
  ⟨createCohortData_pairwise data s r segments hnd,
   fun seg key hne => createCohortData_filter_thirteen data s r segments hnd seg key hne⟩

/-- Witness for C6 on the C1 scenario: the single emitted (segment, cohort)
pair carries exactly the periods 0..12. -/
theorem c6_output_ordering_witness :
    ((createCohortData c1Events c1Settings c1Range ["All"]).filter
        (fun rec => rec.segment == "All" && rec.cohort == toDays ⟨2024, 1, 1⟩)).map
      (·.period) = List.range 13 :=
  (c6_output_ordering c1Events c1Settings c1Range ["All"] (by decide)).2 "All"
    (toDays ⟨2024, 1, 1⟩) (by decide)
